import Mathlib

/-
Verification of the civic-weave match-scoring engine and notification
protocol.

The development shallowly embeds the two batch jobs of the repository:

* `src/backend/jobs/calculate_matches.py` — the vector-similarity library
  (`calculate_cosine_similarity`, `calculate_euclidean_similarity`,
  `calculate_coverage_score`) and the full recompute pipeline
  (`recalculate_all_matches`), modelled over real numbers with explicit
  association lists for the volunteer skill dictionaries.

* `src/backend/jobs/notify_project_matches.py` — candidate selection
  (`get_top_candidates`), the notification dedup ledger
  (`record_notification`), the message-percentage computation, and the
  per-project / per-candidate error-isolation control flow
  (`process_project_notifications`), modelled over rationals so that the
  selection logic is executable.

Database rows are lists of structures; SQL filters become list filters,
`ORDER BY` becomes an insertion sort by the same key, and `LIMIT` becomes
`List.take`.  Python floats are idealised as real numbers; Python `dict`s
are association lists queried with `List.lookup`.
-/

/- ===================== Vector Similarity Library ===================== -/

/-- A volunteer's skill dictionary: Python `Dict[int, float]` as an
association list `skill_id -> weight`. -/
abbrev SkillWeights : Type := List (Int × ℝ)

/-- The numeric core of `calculate_cosine_similarity`
(`calculate_matches.py` lines 44-53): given the volunteer vector `v_vec`
built over the intersection, compare it with the all-ones vector `p_vec`
of the same length.  `np.dot(v_vec, p_vec) = v_vec.sum`,
`np.linalg.norm v_vec = sqrt (sum of squares)`, and
`np.linalg.norm p_vec = sqrt (length)`; the quotient is taken only when
`norm_v > 0 and norm_p > 0`, else the score is `0.0`. -/
noncomputable def cosineOfVec (v_vec : List ℝ) : ℝ :=
  let dot_product := v_vec.sum
  let norm_v := Real.sqrt ((v_vec.map (fun x => x ^ 2)).sum)
  let norm_p := Real.sqrt ((v_vec.length : ℝ))
  if 0 < norm_v ∧ 0 < norm_p then dot_product / (norm_v * norm_p) else (0 : ℝ)

/-- `calculate_cosine_similarity` from `calculate_matches.py` (lines 27-55).
Restricted-space cosine similarity: intersect the required list with the
dictionary keys (keeping the list order and multiplicity of
`project_skill_ids`, as the Python comprehension does), build the
volunteer vector over the intersection, and feed it to `cosineOfVec`. -/
noncomputable def calculate_cosine_similarity (volunteer_weights : SkillWeights)
    (project_skill_ids : List Int) : ℝ × List Int × Nat :=
  let matched_ids := project_skill_ids.filter (fun sid => (volunteer_weights.lookup sid).isSome)
  if matched_ids = [] then ((0 : ℝ), ([] : List Int), (0 : Nat))
  else
    let v_vec := matched_ids.map (fun sid => (volunteer_weights.lookup sid).getD 0)
    (cosineOfVec v_vec, matched_ids, matched_ids.length)

/-- `calculate_euclidean_similarity` from `calculate_matches.py`
(lines 57-82): distance of the volunteer vector (over the full required
list, missing skills weight 0) from the all-ones vector, normalised by the
maximal distance `sqrt |R|`, clamped to 1, and flipped. -/
noncomputable def calculate_euclidean_similarity (volunteer_weights : SkillWeights)
    (project_skill_ids : List Int) : ℝ :=
  if project_skill_ids = [] then 0
  else
    let v_vec := project_skill_ids.map (fun sid => (volunteer_weights.lookup sid).getD 0)
    let euclidean_dist := Real.sqrt ((v_vec.map (fun x => (x - 1) ^ 2)).sum)
    let max_possible_dist := Real.sqrt ((project_skill_ids.length : ℝ))
    let normalized_dist := min (euclidean_dist / max_possible_dist) 1
    1 - normalized_dist

/-- `calculate_coverage_score` from `calculate_matches.py` (lines 84-99):
mean of the volunteer's weights across the required list, missing skills
counting as 0. -/
noncomputable def calculate_coverage_score (volunteer_weights : SkillWeights)
    (project_skill_ids : List Int) : ℝ :=
  if project_skill_ids = [] then 0
  else (project_skill_ids.map (fun sid => (volunteer_weights.lookup sid).getD 0)).sum /
    (project_skill_ids.length : ℝ)

/-- Uniform scaling of a volunteer's skill dictionary by a factor `c`
(every weight `w` becomes `c * w`, keys unchanged). -/
def scaleWeights (c : ℝ) (volunteer_weights : SkillWeights) : SkillWeights :=
  volunteer_weights.map (fun p => (p.1, c * p.2))

/- ===================== Recompute Pipeline ===================== -/

/-- One row of the `volunteer_initiative_matches` table
(`calculate_matches.py` lines 154-157 and 170-175).  `calculated_at` is an
abstract clock reading. -/
structure MatchRecord where
  volunteer_id : Nat
  initiative_id : Nat
  match_score : ℝ
  jaccard_index : ℝ
  matched_skill_ids : List Int
  matched_skill_count : Nat
  calculated_at : Nat

/-- The row the inner loop of `recalculate_all_matches` (lines 140-157)
appends for one (initiative, volunteer) pair: `none` when no skill matches
(`if matched_count > 0` fails), otherwise the record with cosine as
`match_score` and `matched_count / len(required_skills)` as
`jaccard_index`. -/
noncomputable def matchRowFor (now : Nat) (initiative_id : Nat) (required_skills : List Int)
    (volunteer_id : Nat) (skills : SkillWeights) : Option MatchRecord :=
  let r := calculate_cosine_similarity skills required_skills
  if 0 < r.2.2 then
    let _euclidean_score := calculate_euclidean_similarity skills required_skills
    let _coverage_score := calculate_coverage_score skills required_skills
    let jaccard := (r.2.2 : ℝ) / (required_skills.length : ℝ)
    some ⟨volunteer_id, initiative_id, r.1, jaccard, r.2.1, r.2.2, now⟩
  else none

/-- The full cross-product pass of `recalculate_all_matches`
(lines 135-161): every active initiative against every volunteer with
skills, keeping only pairs with at least one matched skill. -/
noncomputable def computeMatches (now : Nat) (initiatives : List (Nat × List Int))
    (volunteer_skills : List (Nat × SkillWeights)) : List MatchRecord :=
  initiatives.flatMap (fun init =>
    volunteer_skills.filterMap (fun vol => matchRowFor now init.1 init.2 vol.1 vol.2))

/-- `recalculate_all_matches` as a transition on the stored match table
(lines 101-178): compute all qualifying records, `TRUNCATE` the table,
bulk-insert the new records.  The prior table contents are discarded
wholesale. -/
noncomputable def recalculate_all_matches (now : Nat) (initiatives : List (Nat × List Int))
    (volunteer_skills : List (Nat × SkillWeights)) (table : List MatchRecord) :
    List MatchRecord :=
  let new_rows := computeMatches now initiatives volunteer_skills
  let cleared : List MatchRecord := []    -- TRUNCATE volunteer_initiative_matches
  let _ := table
  cleared ++ new_rows                      -- bulk INSERT of the new rows

/-- The data content of a stored match row: every column except the
`calculated_at` clock reading. -/
def MatchRecord.row (r : MatchRecord) :
    Nat × Nat × ℝ × ℝ × List Int × Nat :=
  (r.volunteer_id, r.initiative_id, r.match_score, r.jaccard_index,
    r.matched_skill_ids, r.matched_skill_count)

/- ===================== Candidate Selection & Dedup Ledger ===================== -/

/-- One row of `volunteer_project_matches` as read by
`get_top_candidates` (`notify_project_matches.py` lines 56-75). -/
structure MatchRow where
  project_id : Nat
  volunteer_id : Nat
  match_score : ℚ
  matched_skill_count : Nat
deriving DecidableEq

/-- One row of the `volunteers` table as joined by `get_top_candidates`. -/
structure Volunteer where
  id : Nat
  user_id : Nat
  name : String
  skills_visible : Bool
deriving DecidableEq

/-- One row of the `candidate_notifications` dedup ledger
(`notify_project_matches.py` lines 132-139). -/
structure NotificationRecord where
  project_id : Nat
  volunteer_id : Nat
  match_score : ℚ
  batch_id : Nat
deriving DecidableEq

/-- One row returned by `get_top_candidates`:
`(volunteer_id, user_id, match_score, volunteer_name)`. -/
structure Candidate where
  volunteer_id : Nat
  user_id : Nat
  match_score : ℚ
  volunteer_name : String
deriving DecidableEq

/-- The `NOT EXISTS` subquery of `get_top_candidates`: the ledger holds a
row for this (project, volunteer, batch) triple. -/
def alreadyNotified (ledger : List NotificationRecord)
    (project_id volunteer_id batch_id : Nat) : Prop :=
  ∃ cn ∈ ledger, cn.project_id = project_id ∧ cn.volunteer_id = volunteer_id ∧
    cn.batch_id = batch_id

instance (ledger : List NotificationRecord) (p v b : Nat) :
    Decidable (alreadyNotified ledger p v b) :=
  List.decidableBEx _ ledger

/-- The `FROM ... JOIN ... WHERE` part of the `get_top_candidates` query:
joined (match, volunteer) rows for the project that pass the score
threshold, are visible, and have no dedup-ledger row for this batch. -/
def eligiblePairs (match_table : List MatchRow) (volunteers : List Volunteer)
    (ledger : List NotificationRecord) (project_id : Nat) (min_score : ℚ)
    (batch_id : Nat) : List (MatchRow × Volunteer) :=
  (match_table.flatMap (fun m => volunteers.map (fun v => (m, v)))).filter
    (fun mv => decide (mv.1.volunteer_id = mv.2.id ∧ mv.1.project_id = project_id ∧
      min_score ≤ mv.1.match_score ∧ mv.2.skills_visible = true ∧
      ¬ alreadyNotified ledger project_id mv.2.id batch_id))

/-- The `ORDER BY m.match_score DESC, m.matched_skill_count DESC` key:
`a` may come before `b`. -/
def candOrder (a b : MatchRow × Volunteer) : Prop :=
  b.1.match_score < a.1.match_score ∨
    (a.1.match_score = b.1.match_score ∧ b.1.matched_skill_count ≤ a.1.matched_skill_count)

instance : DecidableRel candOrder := fun _ _ => instDecidableOr

/-- The query result rows before projection: sorted by the `ORDER BY` key,
truncated by `LIMIT top_k`. -/
def selectedRows (match_table : List MatchRow) (volunteers : List Volunteer)
    (ledger : List NotificationRecord) (project_id top_k : Nat) (min_score : ℚ)
    (batch_id : Nat) : List (MatchRow × Volunteer) :=
  (List.insertionSort candOrder
    (eligiblePairs match_table volunteers ledger project_id min_score batch_id)).take top_k

/-- The projection of a joined row onto the four selected columns. -/
def toCandidate (mv : MatchRow × Volunteer) : Candidate :=
  ⟨mv.2.id, mv.2.user_id, mv.1.match_score, mv.2.name⟩

/-- `get_top_candidates` from `notify_project_matches.py` (lines 50-77). -/
def get_top_candidates (match_table : List MatchRow) (volunteers : List Volunteer)
    (ledger : List NotificationRecord) (project_id top_k : Nat) (min_score : ℚ)
    (batch_id : Nat) : List Candidate :=
  (selectedRows match_table volunteers ledger project_id top_k min_score batch_id).map toCandidate

/-- `record_notification` from `notify_project_matches.py` (lines 129-139):
`INSERT ... ON CONFLICT (project_id, volunteer_id, notification_batch_id)
DO NOTHING`. -/
def record_notification (ledger : List NotificationRecord)
    (project_id volunteer_id : Nat) (match_score : ℚ) (batch_id : Nat) :
    List NotificationRecord :=
  if alreadyNotified ledger project_id volunteer_id batch_id then ledger
  else ledger ++ [⟨project_id, volunteer_id, match_score, batch_id⟩]

/-- The caller loop of `process_project_notifications` (lines 170-178):
commit one `NotificationRecord` per returned candidate. -/
def commitBatch (ledger : List NotificationRecord) (project_id batch_id : Nat)
    (candidates : List Candidate) : List NotificationRecord :=
  candidates.foldl
    (fun led c => record_notification led project_id c.volunteer_id c.match_score batch_id)
    ledger

/- ===================== Message percentages ===================== -/

/-- Python `int()` on a rational: truncation toward zero. -/
def pyInt (q : ℚ) : Int := if 0 ≤ q then ⌊q⌋ else ⌈q⌉

/-- The percentage embedded in the candidate message of
`send_candidate_notification` (line 85): `int(match_score * 100)`. -/
def candidate_message_percent (match_score : ℚ) : Int := pyInt (match_score * 100)

/-- The percentage embedded in each team-lead summary line of
`send_team_lead_notification` (line 107): `int(score * 100)`. -/
def team_lead_line_percent (match_score : ℚ) : Int := pyInt (match_score * 100)

/- ===================== Error-isolation control flow ===================== -/

/-- Outcome of one project in `process_project_notifications`: how many
candidates were notified and whether the team-lead summary went out. -/
structure ProjResult where
  notified_count : Nat
  team_lead_notified : Bool
deriving DecidableEq

/-- The fallible collaborators consumed by `process_project_notifications`:
candidate retrieval, per-candidate message dispatch, dedup-record insert,
and the team-lead summary dispatch.  Each may raise (`Except.error`). -/
structure NotifyEnv where
  get_candidates : Nat → Except String (List Candidate)
  send_candidate : Nat → Candidate → Except String Unit
  record_insert : Nat → Candidate → Except String Unit
  send_team_lead : Nat → List Candidate → Except String Unit

/-- The per-candidate `try` block (lines 170-178): send the message, then
record the notification; any error is caught and the loop continues.
Returns whether this candidate counted as notified. -/
def processOneCandidate (env : NotifyEnv) (project_id : Nat) (c : Candidate) : Bool :=
  match env.send_candidate project_id c with
  | Except.ok _ =>
    match env.record_insert project_id c with
    | Except.ok _ => true
    | Except.error _ => false
  | Except.error _ => false

/-- The body of the per-project loop of `process_project_notifications`
(lines 157-190).  Candidate retrieval is NOT wrapped in a `try`: its error
propagates.  With no candidates the project is skipped (`continue`).
Otherwise every candidate is attempted (failures caught per candidate) and
the team-lead summary is attempted inside its own `try`. -/
def process_one_project (env : NotifyEnv) (project_id : Nat) : Except String ProjResult := do
  let candidates ← env.get_candidates project_id
  if candidates = [] then
    return ⟨0, false⟩
  else
    let notified := candidates.countP (fun c => processOneCandidate env project_id c)
    let lead_ok := (env.send_team_lead project_id candidates).isOk
    return ⟨notified, lead_ok⟩

/-- `process_project_notifications` (lines 142-196) over a list of
recruiting projects: each project is processed in order; an error escaping
a project body aborts the remainder of the run. -/
def process_project_notifications (env : NotifyEnv) :
    List Nat → Except String (List (Nat × ProjResult))
  | [] => Except.ok []
  | p :: ps => do
    let r ← process_one_project env p
    let rest ← process_project_notifications env ps
    Except.ok ((p, r) :: rest)

/-- A collaborator environment whose candidate retrieval raises for
project 1 and succeeds (with no candidates) elsewhere; every dispatch
succeeds. -/
def env0 : NotifyEnv where
  get_candidates := fun p => if p = 1 then Except.error "db error" else Except.ok []
  send_candidate := fun _ _ => Except.ok ()
  record_insert := fun _ _ => Except.ok ()
  send_team_lead := fun _ _ => Except.ok ()

/-- A collaborator environment where everything succeeds and project 1 has
one candidate. -/
def env1 : NotifyEnv where
  get_candidates := fun _ => Except.ok [⟨10, 100, 9/10, "a"⟩]
  send_candidate := fun _ _ => Except.ok ()
  record_insert := fun _ _ => Except.ok ()
  send_team_lead := fun _ _ => Except.ok ()

instance : IsTotal (MatchRow × Volunteer) candOrder :=
  ⟨by
    intro a b
    rcases lt_trichotomy a.1.match_score b.1.match_score with h | h | h
    · right
      left
      exact h
    · rcases le_total b.1.matched_skill_count a.1.matched_skill_count with hc | hc
      · left
        right
        exact ⟨h, hc⟩
      · right
        right
        exact ⟨h.symm, hc⟩
    · left
      left
      exact h⟩

instance : IsTrans (MatchRow × Volunteer) candOrder :=
  ⟨by
    intro a b c hab hbc
    rcases hab with h1 | ⟨h1e, h1c⟩ <;> rcases hbc with h2 | ⟨h2e, h2c⟩
    · left
      exact h2.trans h1
    · left
      rw [← h2e]
      exact h1
    · left
      rw [h1e]
      exact h2
    · right
      exact ⟨h1e.trans h2e, h2c.trans h1c⟩⟩

/- ===================== Helper lemmas ===================== -/

lemma lookup_mem {α β : Type} [BEq α] [LawfulBEq α] {l : List (α × β)} {a : α} {b : β}
    (h : l.lookup a = some b) : (a, b) ∈ l := by
  induction l with
  | nil => simp [List.lookup] at h
  | cons p t ih =>
    obtain ⟨k, v⟩ := p
    cases hk : a == k with
    | true =>
      rw [List.lookup, hk] at h
      obtain rfl : v = b := by simpa using h
      exact (eq_of_beq hk) ▸ List.mem_cons_self _ _
    | false =>
      rw [List.lookup, hk] at h
      exact List.mem_cons_of_mem _ (ih h)

lemma lookup_isSome_iff {α β : Type} [BEq α] [LawfulBEq α] {l : List (α × β)} {a : α} :
    (l.lookup a).isSome = true ↔ a ∈ l.map Prod.fst := by
  induction l with
  | nil => simp [List.lookup]
  | cons p t ih =>
    obtain ⟨k, v⟩ := p
    by_cases hak : a = k
    · subst hak
      simp [List.lookup]
    · have hk : (a == k) = false := beq_eq_false_iff_ne.mpr hak
      rw [List.lookup, hk]
      simp [ih, hak]

/-- Cauchy-Schwarz against the all-ones vector, in list form. -/
lemma list_sq_sum_le_length_mul_sum_sq (l : List ℝ) :
    l.sum ^ 2 ≤ (l.length : ℝ) * (l.map (fun x => x ^ 2)).sum := by
  induction l with
  | nil => simp
  | cons a t ih =>
    have hQ : 0 ≤ (t.map (fun x => x ^ 2)).sum := by
      apply List.sum_nonneg
      intro x hx
      obtain ⟨y, _, rfl⟩ := List.mem_map.mp hx
      positivity
    rcases t with _ | ⟨b, t2⟩
    · simp
    · have hn0 : (0 : ℝ) < ((b :: t2).length : ℝ) := by
        exact_mod_cast Nat.succ_pos t2.length
      have key : ∀ S Q nr : ℝ, 0 < nr → S ^ 2 ≤ nr * Q → 0 ≤ Q →
          (a + S) ^ 2 ≤ (nr + 1) * (a ^ 2 + Q) := by
        intro S Q nr h0 hSQ hQ0
        nlinarith [sq_nonneg (nr * a - S),
          mul_nonneg (by linarith : (0:ℝ) ≤ nr + 1) (by linarith : 0 ≤ nr * Q - S ^ 2)]
      have hmain := key ((b :: t2).sum) (((b :: t2).map (fun x => x ^ 2)).sum)
        (((b :: t2).length : ℝ)) hn0 ih hQ
      simp only [List.sum_cons, List.map_cons, List.length_cons] at hmain ⊢
      push_cast
      push_cast at hmain
      linarith

/-- The cosine of a vector with nonnegative entries against the all-ones
vector lies in `[0, 1]`. -/
lemma cosineOfVec_mem_Icc (v : List ℝ) (hv : ∀ x ∈ v, 0 ≤ x) :
    0 ≤ cosineOfVec v ∧ cosineOfVec v ≤ 1 := by
  rw [cosineOfVec]
  split_ifs with h
  · obtain ⟨hnv, hnp⟩ := h
    have hS : 0 ≤ v.sum := List.sum_nonneg hv
    constructor
    · exact div_nonneg hS (mul_nonneg (Real.sqrt_nonneg _) (Real.sqrt_nonneg _))
    · rw [div_le_one (mul_pos hnv hnp)]
      have hcs := list_sq_sum_le_length_mul_sum_sq v
      have h1 : v.sum ≤ Real.sqrt ((v.length : ℝ) * (v.map (fun x => x ^ 2)).sum) := by
        have h2 := Real.sqrt_le_sqrt hcs
        rwa [Real.sqrt_sq hS] at h2
      calc v.sum ≤ Real.sqrt ((v.length : ℝ) * (v.map (fun x => x ^ 2)).sum) := h1
        _ = Real.sqrt ((v.length : ℝ)) * Real.sqrt ((v.map (fun x => x ^ 2)).sum) :=
            Real.sqrt_mul (Nat.cast_nonneg _) _
        _ = Real.sqrt ((v.map (fun x => x ^ 2)).sum) * Real.sqrt ((v.length : ℝ)) :=
            mul_comm _ _
  · norm_num

lemma cosine_empty {W : SkillWeights} {R : List Int}
    (h : R.filter (fun sid => (W.lookup sid).isSome) = []) :
    calculate_cosine_similarity W R = ((0 : ℝ), ([] : List Int), (0 : Nat)) := by
  simp only [calculate_cosine_similarity]
  rw [if_pos h]

lemma cosine_nonempty {W : SkillWeights} {R : List Int}
    (h : R.filter (fun sid => (W.lookup sid).isSome) ≠ []) :
    calculate_cosine_similarity W R =
      (cosineOfVec ((R.filter (fun sid => (W.lookup sid).isSome)).map
          (fun sid => (W.lookup sid).getD 0)),
       R.filter (fun sid => (W.lookup sid).isSome),
       (R.filter (fun sid => (W.lookup sid).isSome)).length) := by
  simp only [calculate_cosine_similarity]
  rw [if_neg h]

lemma volVec_nonneg {W : SkillWeights} (hw : ∀ p ∈ W, 0 ≤ p.2) (m : List Int) :
    ∀ x ∈ m.map (fun sid => ((W.lookup sid).getD 0 : ℝ)), 0 ≤ x := by
  intro x hx
  obtain ⟨sid, _, rfl⟩ := List.mem_map.mp hx
  cases hl : W.lookup sid with
  | none => simp
  | some w => simpa using hw (sid, w) (lookup_mem hl)

/- ===================== C2 ===================== -/

/-- C2: for every skill-weight mapping with nonnegative weights and every
required-skill list, the cosine score lies in `[0, 1]`, and it is `0`
whenever the required list has no id among the mapping's keys. -/
theorem c2_cosine_bounds (W : SkillWeights) (R : List Int)
    (hw : ∀ p ∈ W, 0 ≤ p.2) :
    0 ≤ (calculate_cosine_similarity W R).1 ∧
      (calculate_cosine_similarity W R).1 ≤ 1 ∧
      ((∀ sid ∈ R, sid ∉ W.map Prod.fst) → (calculate_cosine_similarity W R).1 = 0) := by
  by_cases hme : R.filter (fun sid => (W.lookup sid).isSome) = []
  · rw [cosine_empty hme]
    norm_num
  · rw [cosine_nonempty hme]
    have hb := cosineOfVec_mem_Icc _ (volVec_nonneg hw (R.filter (fun sid => (W.lookup sid).isSome)))
    refine ⟨hb.1, hb.2, ?_⟩
    intro hnone
    exfalso
    apply hme
    rw [List.filter_eq_nil_iff]
    intro sid hsid
    intro hsome
    exact hnone sid hsid (lookup_isSome_iff.mp hsome)

/-- Witness for C2 at a concrete mapping and list. -/
theorem c2_cosine_bounds_witness :
    (∀ p ∈ [((1 : Int), (1/2 : ℝ))], 0 ≤ p.2) ∧
      (0 ≤ (calculate_cosine_similarity [((1 : Int), (1/2 : ℝ))] [1, 2]).1 ∧
        (calculate_cosine_similarity [((1 : Int), (1/2 : ℝ))] [1, 2]).1 ≤ 1 ∧
        ((∀ sid ∈ [(1 : Int), 2], sid ∉ ([((1 : Int), (1/2 : ℝ))]).map Prod.fst) →
          (calculate_cosine_similarity [((1 : Int), (1/2 : ℝ))] [1, 2]).1 = 0)) := by
  have h : ∀ p ∈ [((1 : Int), (1/2 : ℝ))], 0 ≤ p.2 := by norm_num
  exact ⟨h, c2_cosine_bounds _ _ h⟩

/- ===================== C10 ===================== -/

lemma lookup_scaleWeights (c : ℝ) (W : SkillWeights) (sid : Int) :
    (scaleWeights c W).lookup sid = (W.lookup sid).map (fun w => c * w) := by
  induction W with
  | nil => simp [scaleWeights, List.lookup]
  | cons p t ih =>
    obtain ⟨k, v⟩ := p
    cases hk : sid == k with
    | true => simp [scaleWeights, List.lookup, hk]
    | false => simpa [scaleWeights, List.lookup, hk] using ih

lemma getD_map_mul_left (c : ℝ) (o : Option ℝ) :
    (o.map (fun w => c * w)).getD 0 = c * o.getD 0 := by
  cases o <;> simp

lemma cosineOfVec_scale (c : ℝ) (hc : 0 < c) (v : List ℝ) :
    cosineOfVec (v.map (fun x => c * x)) = cosineOfVec v := by
  simp only [cosineOfVec]
  have hsum : (v.map (fun x => c * x)).sum = c * v.sum := by
    simpa using List.sum_map_mul_left v (fun x => x) c
  have hsq : ((v.map (fun x => c * x)).map (fun x => x ^ 2)).sum =
      c ^ 2 * ((v.map (fun x => x ^ 2)).sum) := by
    rw [List.map_map]
    have : ((fun x => x ^ 2) ∘ fun x => c * x) = fun x => c ^ 2 * x ^ 2 := by
      funext x
      simp [mul_pow]
    rw [this]
    simpa using List.sum_map_mul_left v (fun x => x ^ 2) (c ^ 2)
  have hnorm : Real.sqrt (c ^ 2 * ((v.map (fun x => x ^ 2)).sum)) =
      c * Real.sqrt ((v.map (fun x => x ^ 2)).sum) := by
    rw [Real.sqrt_mul (sq_nonneg c), Real.sqrt_sq hc.le]
  rw [List.length_map, hsum, hsq, hnorm]
  have hpos : 0 < c * Real.sqrt ((v.map (fun x => x ^ 2)).sum) ↔
      0 < Real.sqrt ((v.map (fun x => x ^ 2)).sum) := by
    constructor
    · intro h
      rcases (Real.sqrt_nonneg ((v.map (fun x => x ^ 2)).sum)).lt_or_eq with h1 | h1
      · exact h1
      · rw [← h1] at h
        simp at h
    · intro h
      exact mul_pos hc h
  by_cases hv : 0 < Real.sqrt ((v.map (fun x => x ^ 2)).sum) ∧ 0 < Real.sqrt ((v.length : ℝ))
  · rw [if_pos ⟨hpos.mpr hv.1, hv.2⟩, if_pos hv]
    rw [mul_assoc]
    exact mul_div_mul_left _ _ (ne_of_gt hc)
  · rw [if_neg ?_, if_neg hv]
    intro hcontra
    exact hv ⟨hpos.mp hcontra.1, hcontra.2⟩

lemma filter_scaleWeights (c : ℝ) (W : SkillWeights) (R : List Int) :
    R.filter (fun sid => ((scaleWeights c W).lookup sid).isSome) =
      R.filter (fun sid => (W.lookup sid).isSome) := by
  apply List.filter_congr
  intro sid _
  rw [lookup_scaleWeights]
  cases W.lookup sid <;> simp

/-- C10: the cosine triple is invariant under uniform positive scaling of
the volunteer's weights, and a single positive matched weight always
yields cosine exactly 1. -/
theorem c10_cosine_scale_invariant (W : SkillWeights) (R : List Int) (c : ℝ)
    (_hw : ∀ p ∈ W, 0 ≤ p.2) (hc : 0 < c) :
    calculate_cosine_similarity (scaleWeights c W) R = calculate_cosine_similarity W R ∧
      (∀ s w, (calculate_cosine_similarity W R).2.1 = [s] → W.lookup s = some w → 0 < w →
        (calculate_cosine_similarity W R).1 = 1) := by
  constructor
  · by_cases hme : R.filter (fun sid => (W.lookup sid).isSome) = []
    · rw [cosine_empty hme, cosine_empty (by rw [filter_scaleWeights]; exact hme)]
    · rw [cosine_nonempty hme, cosine_nonempty (by rw [filter_scaleWeights]; exact hme)]
      rw [filter_scaleWeights]
      have hvec : (R.filter (fun sid => (W.lookup sid).isSome)).map
          (fun sid => ((scaleWeights c W).lookup sid).getD 0) =
          ((R.filter (fun sid => (W.lookup sid).isSome)).map
            (fun sid => ((W.lookup sid).getD 0 : ℝ))).map (fun x => c * x) := by
        rw [List.map_map]
        apply List.map_congr_left
        intro sid _
        simp [lookup_scaleWeights, getD_map_mul_left, Function.comp]
      rw [hvec, cosineOfVec_scale c hc]
  · intro s w hs hlook hwpos
    by_cases hme : R.filter (fun sid => (W.lookup sid).isSome) = []
    · rw [cosine_empty hme] at hs
      simp at hs
    · rw [cosine_nonempty hme] at hs ⊢
      simp only at hs
      rw [hs]
      simp only [List.map_cons, List.map_nil, hlook, Option.getD_some]
      rw [cosineOfVec]
      simp only [List.sum_cons, List.sum_nil, List.map_cons, List.map_nil, List.length_cons,
        List.length_nil]
      have h1 : Real.sqrt ((w ^ 2 + 0 : ℝ)) = w := by
        rw [add_zero, Real.sqrt_sq hwpos.le]
      have h2 : Real.sqrt (((0 : Nat) + 1 : ℝ)) = 1 := by
        norm_num
      rw [show (((0 : Nat) + 1 : Nat) : ℝ) = ((0 : Nat) + 1 : ℝ) by push_cast; ring] at *
      rw [h1, h2] at *
      rw [if_pos ⟨hwpos, one_pos⟩]
      rw [add_zero, mul_one, div_self (ne_of_gt hwpos)]

/-- Witness for C10 at a concrete mapping, list, and scale factor. -/
theorem c10_cosine_scale_invariant_witness :
    (∀ p ∈ [((1 : Int), (2 : ℝ))], 0 ≤ p.2) ∧ (0 : ℝ) < 3 ∧
      (calculate_cosine_similarity (scaleWeights 3 [((1 : Int), (2 : ℝ))]) [1] =
          calculate_cosine_similarity [((1 : Int), (2 : ℝ))] [1] ∧
        (∀ s w, (calculate_cosine_similarity [((1 : Int), (2 : ℝ))] [1]).2.1 = [s] →
          ([((1 : Int), (2 : ℝ))] : SkillWeights).lookup s = some w → 0 < w →
          (calculate_cosine_similarity [((1 : Int), (2 : ℝ))] [1]).1 = 1)) := by
  have h : ∀ p ∈ [((1 : Int), (2 : ℝ))], 0 ≤ p.2 := by norm_num
  exact ⟨h, by norm_num, c10_cosine_scale_invariant _ _ 3 h (by norm_num)⟩

/- ===================== C3 ===================== -/

/-- C3 (amended): `matched_skill_count` always equals the length of
`matched_skill_ids`; `matched_skill_ids` holds exactly the required ids
that are keys of the mapping, one entry per occurrence in the required
list; when the required list has no duplicates the count equals the size
of the set intersection of the required ids with the mapping's keys. -/
theorem c3_matched_count (W : SkillWeights) (R : List Int) :
    (calculate_cosine_similarity W R).2.2 = (calculate_cosine_similarity W R).2.1.length ∧
      (∀ sid, sid ∈ (calculate_cosine_similarity W R).2.1 ↔
        (sid ∈ R ∧ sid ∈ W.map Prod.fst)) ∧
      (R.Nodup → (calculate_cosine_similarity W R).2.2 =
        (R.toFinset ∩ (W.map Prod.fst).toFinset).card) := by
  by_cases hme : R.filter (fun sid => (W.lookup sid).isSome) = []
  · rw [cosine_empty hme]
    have hnot : ∀ sid ∈ R, ¬ ((W.lookup sid).isSome = true) := List.filter_eq_nil_iff.mp hme
    refine ⟨rfl, ?_, ?_⟩
    · intro sid
      simp only [List.not_mem_nil, false_iff]
      rintro ⟨hsR, hsK⟩
      exact hnot sid hsR (lookup_isSome_iff.mpr hsK)
    · intro _
      have hinter : R.toFinset ∩ (W.map Prod.fst).toFinset = ∅ := by
        apply Finset.eq_empty_of_forall_not_mem
        intro x hx
        obtain ⟨hx1, hx2⟩ := Finset.mem_inter.mp hx
        exact hnot x (List.mem_toFinset.mp hx1)
          (lookup_isSome_iff.mpr (List.mem_toFinset.mp hx2))
      rw [hinter]
      rfl
  · rw [cosine_nonempty hme]
    refine ⟨rfl, ?_, ?_⟩
    · intro sid
      rw [List.mem_filter]
      exact and_congr_right (fun _ => lookup_isSome_iff)
    · intro hnd
      have hndf : (R.filter (fun sid => (W.lookup sid).isSome)).Nodup := hnd.filter _
      rw [← List.toFinset_card_of_nodup hndf, List.toFinset_filter]
      have hcong : Finset.filter (fun x => ((W.lookup x).isSome = true)) R.toFinset =
          Finset.filter (fun x => x ∈ (W.map Prod.fst).toFinset) R.toFinset := by
        apply Finset.filter_congr
        intro x _
        rw [lookup_isSome_iff, List.mem_toFinset]
      rw [hcong, Finset.filter_mem_eq_inter]

/-- C3 as stated fails: with required list `[1, 1]` and a single key `1`,
the returned count is 2 while the set intersection has one element. -/
theorem c3_counterexample :
    (calculate_cosine_similarity [((1 : Int), (1 : ℝ))] [1, 1]).2.2 = 2 ∧
      ((([1, 1] : List Int)).toFinset ∩
        (([((1 : Int), (1 : ℝ))] : SkillWeights).map Prod.fst).toFinset).card = 1 := by
  constructor
  · rfl
  · decide

/-- Witness for the amended C3 at a duplicate-free required list. -/
theorem c3_matched_count_witness :
    ([1, 2] : List Int).Nodup ∧
      (calculate_cosine_similarity [((1 : Int), (1 : ℝ))] [1, 2]).2.2 =
        ((([1, 2] : List Int)).toFinset ∩
          (([((1 : Int), (1 : ℝ))] : SkillWeights).map Prod.fst).toFinset).card := by
  have h : ([1, 2] : List Int).Nodup := by decide
  exact ⟨h, (c3_matched_count _ _).2.2 h⟩

/- ===================== C4 ===================== -/

lemma one_sub_min_one_mem (x : ℝ) (hx : 0 ≤ x) :
    0 ≤ 1 - min x 1 ∧ 1 - min x 1 ≤ 1 := by
  constructor
  · have := min_le_right x 1
    linarith
  · have : 0 ≤ min x 1 := le_min hx zero_le_one
    linarith

/-- C4 (amended): for nonnegative weights the coverage score is
nonnegative and the Euclidean similarity lies in `[0, 1]`; the coverage
score is bounded by 1 only under the additional assumption that every
weight is at most 1; both scores are 0 on an empty required list. -/
theorem c4_coverage_euclidean_bounds (W : SkillWeights) (R : List Int)
    (hw : ∀ p ∈ W, 0 ≤ p.2) :
    0 ≤ calculate_coverage_score W R ∧
      ((∀ p ∈ W, p.2 ≤ 1) → calculate_coverage_score W R ≤ 1) ∧
      0 ≤ calculate_euclidean_similarity W R ∧
      calculate_euclidean_similarity W R ≤ 1 ∧
      (R = [] → calculate_coverage_score W R = 0 ∧
        calculate_euclidean_similarity W R = 0) := by
  by_cases hR : R = []
  · subst hR
    simp [calculate_coverage_score, calculate_euclidean_similarity]
  · have hlen : (0 : ℝ) < (R.length : ℝ) := by
      exact_mod_cast List.length_pos.mpr hR
    have hcov : calculate_coverage_score W R =
        (R.map (fun sid => ((W.lookup sid).getD 0 : ℝ))).sum / (R.length : ℝ) := by
      rw [calculate_coverage_score, if_neg hR]
    have heuc : calculate_euclidean_similarity W R =
        1 - min (Real.sqrt (((R.map (fun sid => ((W.lookup sid).getD 0 : ℝ))).map
            (fun x => (x - 1) ^ 2)).sum) / Real.sqrt ((R.length : ℝ))) 1 := by
      rw [calculate_euclidean_similarity, if_neg hR]
    have heucb := one_sub_min_one_mem
      (Real.sqrt (((R.map (fun sid => ((W.lookup sid).getD 0 : ℝ))).map
          (fun x => (x - 1) ^ 2)).sum) / Real.sqrt ((R.length : ℝ)))
      (div_nonneg (Real.sqrt_nonneg _) (Real.sqrt_nonneg _))
    refine ⟨?_, ?_, ?_, ?_, fun h => absurd h hR⟩
    · rw [hcov]
      exact div_nonneg (List.sum_nonneg (volVec_nonneg hw R)) hlen.le
    · intro hw1
      rw [hcov, div_le_one hlen]
      have hle : ∀ x ∈ R.map (fun sid => ((W.lookup sid).getD 0 : ℝ)), x ≤ 1 := by
        intro x hx
        obtain ⟨sid, _, rfl⟩ := List.mem_map.mp hx
        cases hl : W.lookup sid with
        | none => simp
        | some w => simpa using hw1 (sid, w) (lookup_mem hl)
      have := List.sum_le_card_nsmul _ 1 hle
      simpa [List.length_map] using this
    · rw [heuc]
      exact heucb.1
    · rw [heuc]
      exact heucb.2

/-- C4 as stated fails: a single weight of 2 on the only required skill
gives a coverage score of 2, outside `[0, 1]`, although all weights are
nonnegative. -/
theorem c4_counterexample :
    (∀ p ∈ [((1 : Int), (2 : ℝ))], 0 ≤ p.2) ∧
      1 < calculate_coverage_score [((1 : Int), (2 : ℝ))] [1] := by
  constructor
  · norm_num
  · have h2 : calculate_coverage_score [((1 : Int), (2 : ℝ))] [1] = 2 := by
      rw [calculate_coverage_score, if_neg (by simp)]
      simp [List.lookup]
    rw [h2]
    norm_num

/-- Witness for the amended C4 at a concrete mapping and list. -/
theorem c4_coverage_euclidean_bounds_witness :
    (∀ p ∈ [((1 : Int), (1/2 : ℝ))], 0 ≤ p.2) ∧
      (0 ≤ calculate_coverage_score [((1 : Int), (1/2 : ℝ))] [1] ∧
        ((∀ p ∈ [((1 : Int), (1/2 : ℝ))], p.2 ≤ 1) →
          calculate_coverage_score [((1 : Int), (1/2 : ℝ))] [1] ≤ 1) ∧
        0 ≤ calculate_euclidean_similarity [((1 : Int), (1/2 : ℝ))] [1] ∧
        calculate_euclidean_similarity [((1 : Int), (1/2 : ℝ))] [1] ≤ 1 ∧
        (([1] : List Int) = [] → calculate_coverage_score [((1 : Int), (1/2 : ℝ))] [1] = 0 ∧
          calculate_euclidean_similarity [((1 : Int), (1/2 : ℝ))] [1] = 0)) := by
  have h : ∀ p ∈ [((1 : Int), (1/2 : ℝ))], 0 ≤ p.2 := by norm_num
  exact ⟨h, c4_coverage_euclidean_bounds _ _ h⟩

/- ===================== C6 / C7 ===================== -/

lemma matchRowFor_row_indep (t t' iid : Nat) (req : List Int) (vid : Nat)
    (skills : SkillWeights) :
    (matchRowFor t iid req vid skills).map MatchRecord.row =
      (matchRowFor t' iid req vid skills).map MatchRecord.row := by
  simp only [matchRowFor]
  split_ifs <;> simp [MatchRecord.row]

lemma computeMatches_row_indep (t t' : Nat) (initiatives : List (Nat × List Int))
    (volunteer_skills : List (Nat × SkillWeights)) :
    (computeMatches t initiatives volunteer_skills).map MatchRecord.row =
      (computeMatches t' initiatives volunteer_skills).map MatchRecord.row := by
  simp only [computeMatches, List.map_flatMap, List.map_filterMap]
  have hfun : (fun init : Nat × List Int => volunteer_skills.filterMap
      (fun vol => Option.map MatchRecord.row (matchRowFor t init.1 init.2 vol.1 vol.2))) =
      (fun init : Nat × List Int => volunteer_skills.filterMap
      (fun vol => Option.map MatchRecord.row (matchRowFor t' init.1 init.2 vol.1 vol.2))) := by
    funext init
    exact congrArg (fun f => List.filterMap f volunteer_skills)
      (funext fun vol => matchRowFor_row_indep t t' init.1 init.2 vol.1 vol.2)
  rw [hfun]

/-- C7: re-running the recompute pipeline on unchanged initiative and
volunteer data reproduces the stored match table row for row (all columns
except the `calculated_at` clock reading, which records the run time). -/
theorem c7_recompute_idempotent (t1 t2 : Nat) (initiatives : List (Nat × List Int))
    (volunteer_skills : List (Nat × SkillWeights)) (table : List MatchRecord) :
    (recalculate_all_matches t2 initiatives volunteer_skills
        (recalculate_all_matches t1 initiatives volunteer_skills table)).map MatchRecord.row =
      (recalculate_all_matches t1 initiatives volunteer_skills table).map MatchRecord.row := by
  simp only [recalculate_all_matches, List.nil_append]
  exact computeMatches_row_indep t2 t1 initiatives volunteer_skills

/-- C6: every persisted match record has at least one matched skill, and
an initiative with an empty required-skill list contributes no record for
any volunteer. -/
theorem c6_no_zero_overlap (now : Nat) (initiatives : List (Nat × List Int))
    (volunteer_skills : List (Nat × SkillWeights)) (table : List MatchRecord) :
    (∀ rec ∈ recalculate_all_matches now initiatives volunteer_skills table,
        1 ≤ rec.matched_skill_count) ∧
      (∀ iid : Nat, recalculate_all_matches now ((iid, ([] : List Int)) :: initiatives)
          volunteer_skills table =
        recalculate_all_matches now initiatives volunteer_skills table) := by
  constructor
  · intro rec hrec
    simp only [recalculate_all_matches, List.nil_append, computeMatches, List.mem_flatMap,
      List.mem_filterMap] at hrec
    obtain ⟨init, _, vol, _, hmk⟩ := hrec
    simp only [matchRowFor] at hmk
    split at hmk
    · rename_i hcount
      cases hmk
      exact hcount
    · cases hmk
  · intro iid
    simp only [recalculate_all_matches, List.nil_append, computeMatches, List.flatMap_cons]
    have hz : volunteer_skills.filterMap
        (fun vol => matchRowFor now iid ([] : List Int) vol.1 vol.2) = [] := by
      rw [List.filterMap_eq_nil_iff]
      intro vol _
      have hcos : calculate_cosine_similarity vol.2 ([] : List Int) =
          ((0 : ℝ), ([] : List Int), (0 : Nat)) := cosine_empty rfl
      simp only [matchRowFor, hcos]
      norm_num
    rw [hz, List.nil_append]

/-- Witness for C6 at a one-initiative, one-volunteer instance with one
matching skill. -/
theorem c6_no_zero_overlap_witness :
    (∃ rec ∈ recalculate_all_matches 0 [(1, [5])] [(7, [((5 : Int), (1 : ℝ))])] [],
        1 ≤ rec.matched_skill_count) ∧
      recalculate_all_matches 0 ((2, ([] : List Int)) :: [(1, [5])])
          [(7, [((5 : Int), (1 : ℝ))])] [] =
        recalculate_all_matches 0 [(1, [5])] [(7, [((5 : Int), (1 : ℝ))])] [] := by
  refine ⟨?_, (c6_no_zero_overlap 0 [(1, [5])] [(7, [((5 : Int), (1 : ℝ))])] []).2 2⟩
  have hlen : (recalculate_all_matches 0 [(1, [5])] [(7, [((5 : Int), (1 : ℝ))])] []).length
      = 1 := rfl
  cases hl : recalculate_all_matches 0 [(1, [5])] [(7, [((5 : Int), (1 : ℝ))])] [] with
  | nil =>
    rw [hl] at hlen
    simp at hlen
  | cons a t =>
    have hmem : a ∈ recalculate_all_matches 0 [(1, [5])] [(7, [((5 : Int), (1 : ℝ))])] [] := by
      rw [hl]
      exact List.mem_cons_self a t
    exact ⟨a, List.mem_cons_self a t,
      (c6_no_zero_overlap 0 [(1, [5])] [(7, [((5 : Int), (1 : ℝ))])] []).1 a hmem⟩

/- ===================== C5 / C1 ===================== -/

lemma mem_eligiblePairs_iff (match_table : List MatchRow) (volunteers : List Volunteer)
    (ledger : List NotificationRecord) (project_id : Nat) (min_score : ℚ) (batch_id : Nat)
    (mv : MatchRow × Volunteer) :
    mv ∈ eligiblePairs match_table volunteers ledger project_id min_score batch_id ↔
      (mv.1 ∈ match_table ∧ mv.2 ∈ volunteers ∧ mv.1.volunteer_id = mv.2.id ∧
        mv.1.project_id = project_id ∧ min_score ≤ mv.1.match_score ∧
        mv.2.skills_visible = true ∧
        ¬ alreadyNotified ledger project_id mv.2.id batch_id) := by
  obtain ⟨m, v⟩ := mv
  simp only [eligiblePairs, List.mem_filter, List.mem_flatMap, List.mem_map,
    decide_eq_true_eq, Prod.mk.injEq]
  constructor
  · rintro ⟨⟨m1, hm1, v1, hv1, rfl, rfl⟩, hcond⟩
    exact ⟨hm1, hv1, hcond.1, hcond.2.1, hcond.2.2.1, hcond.2.2.2.1, hcond.2.2.2.2⟩
  · rintro ⟨h1, h2, h3, h4, h5, h6, h7⟩
    exact ⟨⟨m, h1, v, h2, rfl, rfl⟩, h3, h4, h5, h6, h7⟩

lemma mem_selectedRows (match_table : List MatchRow) (volunteers : List Volunteer)
    (ledger : List NotificationRecord) (project_id top_k : Nat) (min_score : ℚ)
    (batch_id : Nat) {mv : MatchRow × Volunteer}
    (h : mv ∈ selectedRows match_table volunteers ledger project_id top_k min_score batch_id) :
    mv ∈ eligiblePairs match_table volunteers ledger project_id min_score batch_id := by
  have h1 : mv ∈ List.insertionSort candOrder
      (eligiblePairs match_table volunteers ledger project_id min_score batch_id) :=
    (List.take_sublist _ _).subset h
  exact (List.perm_insertionSort candOrder _).subset h1

lemma mem_get_top_candidates (match_table : List MatchRow) (volunteers : List Volunteer)
    (ledger : List NotificationRecord) (project_id top_k : Nat) (min_score : ℚ)
    (batch_id : Nat) {c : Candidate}
    (h : c ∈ get_top_candidates match_table volunteers ledger project_id top_k min_score
      batch_id) :
    ∃ mv, mv ∈ selectedRows match_table volunteers ledger project_id top_k min_score batch_id ∧
      toCandidate mv = c := by
  obtain ⟨mv, hmv, hc⟩ := List.mem_map.mp h
  exact ⟨mv, hmv, hc⟩

lemma sorted_selectedRows (match_table : List MatchRow) (volunteers : List Volunteer)
    (ledger : List NotificationRecord) (project_id top_k : Nat) (min_score : ℚ)
    (batch_id : Nat) :
    (selectedRows match_table volunteers ledger project_id top_k min_score batch_id).Pairwise
      candOrder :=
  List.Pairwise.sublist (List.take_sublist _ _)
    (List.sorted_insertionSort candOrder
      (eligiblePairs match_table volunteers ledger project_id min_score batch_id))

/-- C5: candidate selection returns at most `top_k` rows; every returned
candidate passes the inclusive score threshold, corresponds to a visible
volunteer row, and has no dedup-ledger record for this batch; the selected
rows are sorted by score descending with ties broken by matched skill
count descending, so the returned list is score-descending. -/
theorem c5_selection_contract (match_table : List MatchRow) (volunteers : List Volunteer)
    (ledger : List NotificationRecord) (project_id top_k : Nat) (min_score : ℚ)
    (batch_id : Nat) :
    (get_top_candidates match_table volunteers ledger project_id top_k min_score
        batch_id).length ≤ top_k ∧
      (∀ c ∈ get_top_candidates match_table volunteers ledger project_id top_k min_score
          batch_id,
        min_score ≤ c.match_score ∧
          (∃ v ∈ volunteers, v.id = c.volunteer_id ∧ v.skills_visible = true ∧
            v.user_id = c.user_id ∧ v.name = c.volunteer_name) ∧
          ¬ alreadyNotified ledger project_id c.volunteer_id batch_id) ∧
      (selectedRows match_table volunteers ledger project_id top_k min_score
        batch_id).Pairwise candOrder ∧
      (get_top_candidates match_table volunteers ledger project_id top_k min_score
        batch_id).Pairwise (fun c1 c2 => c2.match_score ≤ c1.match_score) := by
  refine ⟨?_, ?_, sorted_selectedRows _ _ _ _ _ _ _, ?_⟩
  · rw [get_top_candidates, List.length_map, selectedRows, List.length_take]
    exact min_le_left _ _
  · intro c hc
    obtain ⟨mv, hsel, rfl⟩ :=
      mem_get_top_candidates match_table volunteers ledger project_id top_k min_score
        batch_id hc
    have helig := (mem_eligiblePairs_iff match_table volunteers ledger project_id min_score
      batch_id mv).mp (mem_selectedRows match_table volunteers ledger project_id top_k
        min_score batch_id hsel)
    obtain ⟨_, hv, _, _, hscore, hvis, hnotif⟩ := helig
    exact ⟨hscore, ⟨mv.2, hv, rfl, hvis, rfl, rfl⟩, hnotif⟩
  · rw [get_top_candidates]
    exact List.Pairwise.map toCandidate
      (fun a b hab => by
        rcases hab with h | ⟨h, _⟩
        · exact le_of_lt h
        · exact le_of_eq h.symm)
      (sorted_selectedRows _ _ _ _ _ _ _)

/-- Witness for C5 at the spec's top-K example (scores 90, 85, 60 with
`top_k = 2` and threshold 60). -/
theorem c5_selection_contract_witness :
    ((⟨10, 100, 90, "a"⟩ : Candidate) ∈ get_top_candidates
        [⟨1, 10, 90, 3⟩, ⟨1, 11, 85, 5⟩, ⟨1, 12, 60, 1⟩]
        [⟨10, 100, "a", true⟩, ⟨11, 101, "b", true⟩, ⟨12, 102, "c", true⟩]
        [] 1 2 60 0) ∧
      ((60 : ℚ) ≤ (⟨10, 100, 90, "a"⟩ : Candidate).match_score ∧
        (∃ v ∈ [⟨10, 100, "a", true⟩, ⟨11, 101, "b", true⟩,
            (⟨12, 102, "c", true⟩ : Volunteer)],
          v.id = (⟨10, 100, 90, "a"⟩ : Candidate).volunteer_id ∧ v.skills_visible = true ∧
            v.user_id = (⟨10, 100, 90, "a"⟩ : Candidate).user_id ∧
            v.name = (⟨10, 100, 90, "a"⟩ : Candidate).volunteer_name) ∧
        ¬ alreadyNotified [] 1 (⟨10, 100, 90, "a"⟩ : Candidate).volunteer_id 0) := by
  have hres : get_top_candidates
      [⟨1, 10, 90, 3⟩, ⟨1, 11, 85, 5⟩, ⟨1, 12, 60, 1⟩]
      [⟨10, 100, "a", true⟩, ⟨11, 101, "b", true⟩, ⟨12, 102, "c", true⟩]
      [] 1 2 60 0 = [⟨10, 100, 90, "a"⟩, ⟨11, 101, 85, "b"⟩] := rfl
  have hmem : (⟨10, 100, 90, "a"⟩ : Candidate) ∈ get_top_candidates
      [⟨1, 10, 90, 3⟩, ⟨1, 11, 85, 5⟩, ⟨1, 12, 60, 1⟩]
      [⟨10, 100, "a", true⟩, ⟨11, 101, "b", true⟩, ⟨12, 102, "c", true⟩]
      [] 1 2 60 0 := by
    rw [hres]
    exact List.mem_cons_self _ _
  exact ⟨hmem,
    (c5_selection_contract _ _ _ 1 2 60 0).2.1 _ hmem⟩

lemma alreadyNotified_record_self (ledger : List NotificationRecord)
    (project_id volunteer_id : Nat) (match_score : ℚ) (batch_id : Nat) :
    alreadyNotified (record_notification ledger project_id volunteer_id match_score batch_id)
      project_id volunteer_id batch_id := by
  rw [record_notification]
  split_ifs with h
  · exact h
  · exact ⟨⟨project_id, volunteer_id, match_score, batch_id⟩,
      List.mem_append_right _ (List.mem_cons_self _ _), rfl, rfl, rfl⟩

lemma alreadyNotified_record_mono (ledger : List NotificationRecord)
    (p' v' : Nat) (s' : ℚ) (b' : Nat) {p v b : Nat}
    (h : alreadyNotified ledger p v b) :
    alreadyNotified (record_notification ledger p' v' s' b') p v b := by
  rw [record_notification]
  split_ifs
  · exact h
  · obtain ⟨cn, hcn, hp⟩ := h
    exact ⟨cn, List.mem_append_left _ hcn, hp⟩

lemma alreadyNotified_commitBatch_mono (candidates : List Candidate)
    (ledger : List NotificationRecord) (project_id batch_id : Nat) {p v b : Nat}
    (h : alreadyNotified ledger p v b) :
    alreadyNotified (commitBatch ledger project_id batch_id candidates) p v b := by
  induction candidates generalizing ledger with
  | nil => exact h
  | cons c cs ih =>
    exact ih _ (alreadyNotified_record_mono ledger project_id c.volunteer_id c.match_score
      batch_id h)

lemma alreadyNotified_commitBatch_mem (candidates : List Candidate)
    (ledger : List NotificationRecord) (project_id batch_id : Nat) {c : Candidate}
    (hc : c ∈ candidates) :
    alreadyNotified (commitBatch ledger project_id batch_id candidates) project_id
      c.volunteer_id batch_id := by
  induction candidates generalizing ledger with
  | nil => cases hc
  | cons d ds ih =>
    rcases List.mem_cons.mp hc with rfl | hmem
    · exact alreadyNotified_commitBatch_mono ds _ project_id batch_id
        (alreadyNotified_record_self ledger project_id c.volunteer_id c.match_score batch_id)
    · exact ih _ hmem

/-- C1: once a notification record is committed for every candidate of a
first selection run, a second run with the same batch identifier selects
only volunteers absent from the first run's result; and under a fresh
batch identifier (no ledger rows for it) a joined row is eligible exactly
when it passes the project, threshold and visibility filters. -/
theorem c1_batch_dedup (match_table : List MatchRow) (volunteers : List Volunteer)
    (ledger : List NotificationRecord) (project_id top_k : Nat) (min_score : ℚ)
    (batch_id : Nat) :
    (∀ c2 ∈ get_top_candidates match_table volunteers
        (commitBatch ledger project_id batch_id
          (get_top_candidates match_table volunteers ledger project_id top_k min_score
            batch_id))
        project_id top_k min_score batch_id,
      ∀ c1 ∈ get_top_candidates match_table volunteers ledger project_id top_k min_score
          batch_id,
        c2.volunteer_id ≠ c1.volunteer_id) ∧
      (∀ fresh_batch_id : Nat, (∀ cn ∈ ledger, cn.batch_id ≠ fresh_batch_id) →
        ∀ mv : MatchRow × Volunteer,
          mv ∈ eligiblePairs match_table volunteers ledger project_id min_score
            fresh_batch_id ↔
          (mv.1 ∈ match_table ∧ mv.2 ∈ volunteers ∧ mv.1.volunteer_id = mv.2.id ∧
            mv.1.project_id = project_id ∧ min_score ≤ mv.1.match_score ∧
            mv.2.skills_visible = true)) := by
  constructor
  · intro c2 h2 c1 h1 heq
    obtain ⟨mv2, hsel2, hproj⟩ :=
      mem_get_top_candidates match_table volunteers _ project_id top_k min_score batch_id h2
    have helig := (mem_eligiblePairs_iff match_table volunteers _ project_id min_score
      batch_id mv2).mp (mem_selectedRows match_table volunteers _ project_id top_k
        min_score batch_id hsel2)
    have hnotif := helig.2.2.2.2.2.2
    apply hnotif
    have hvid : mv2.2.id = c1.volunteer_id := by
      rw [← heq, ← hproj]
      rfl
    rw [hvid]
    exact alreadyNotified_commitBatch_mem _ ledger project_id batch_id h1
  · intro fresh_batch_id hfresh mv
    rw [mem_eligiblePairs_iff]
    constructor
    · rintro ⟨h1, h2, h3, h4, h5, h6, _⟩
      exact ⟨h1, h2, h3, h4, h5, h6⟩
    · rintro ⟨h1, h2, h3, h4, h5, h6⟩
      refine ⟨h1, h2, h3, h4, h5, h6, ?_⟩
      rintro ⟨cn, hcn, _, _, hb⟩
      exact hfresh cn hcn hb

/-- Witness for C1: with `top_k = 1` the first run selects volunteer 10;
after committing its record the second run selects volunteer 11, and the
dedup conclusion plus the fresh-batch characterisation apply. -/
theorem c1_batch_dedup_witness :
    ((⟨11, 101, 85, "b"⟩ : Candidate) ∈ get_top_candidates
        [⟨1, 10, 90, 3⟩, ⟨1, 11, 85, 5⟩]
        [⟨10, 100, "a", true⟩, ⟨11, 101, "b", true⟩]
        (commitBatch [] 1 7
          (get_top_candidates [⟨1, 10, 90, 3⟩, ⟨1, 11, 85, 5⟩]
            [⟨10, 100, "a", true⟩, ⟨11, 101, "b", true⟩] [] 1 1 60 7))
        1 1 60 7) ∧
      ((⟨10, 100, 90, "a"⟩ : Candidate) ∈ get_top_candidates
        [⟨1, 10, 90, 3⟩, ⟨1, 11, 85, 5⟩]
        [⟨10, 100, "a", true⟩, ⟨11, 101, "b", true⟩] [] 1 1 60 7) ∧
      (⟨11, 101, 85, "b"⟩ : Candidate).volunteer_id ≠
        (⟨10, 100, 90, "a"⟩ : Candidate).volunteer_id ∧
      (∀ cn ∈ ([] : List NotificationRecord), cn.batch_id ≠ 8) ∧
      ((⟨1, 10, 90, 3⟩, (⟨10, 100, "a", true⟩ : Volunteer)) ∈
          eligiblePairs [⟨1, 10, 90, 3⟩, ⟨1, 11, 85, 5⟩]
            [⟨10, 100, "a", true⟩, ⟨11, 101, "b", true⟩] [] 1 60 8 ↔
        ((⟨1, 10, 90, 3⟩ : MatchRow) ∈ [⟨1, 10, 90, 3⟩, ⟨1, 11, 85, 5⟩] ∧
          (⟨10, 100, "a", true⟩ : Volunteer) ∈
            [⟨10, 100, "a", true⟩, ⟨11, 101, "b", true⟩] ∧
          (⟨1, 10, 90, 3⟩ : MatchRow).volunteer_id = (⟨10, 100, "a", true⟩ : Volunteer).id ∧
          (⟨1, 10, 90, 3⟩ : MatchRow).project_id = 1 ∧
          (60 : ℚ) ≤ (⟨1, 10, 90, 3⟩ : MatchRow).match_score ∧
          (⟨10, 100, "a", true⟩ : Volunteer).skills_visible = true)) := by
  have hrun1 : get_top_candidates [⟨1, 10, 90, 3⟩, ⟨1, 11, 85, 5⟩]
      [⟨10, 100, "a", true⟩, ⟨11, 101, "b", true⟩] [] 1 1 60 7 =
      [⟨10, 100, 90, "a"⟩] := rfl
  have hrun2 : get_top_candidates [⟨1, 10, 90, 3⟩, ⟨1, 11, 85, 5⟩]
      [⟨10, 100, "a", true⟩, ⟨11, 101, "b", true⟩]
      (commitBatch [] 1 7
        (get_top_candidates [⟨1, 10, 90, 3⟩, ⟨1, 11, 85, 5⟩]
          [⟨10, 100, "a", true⟩, ⟨11, 101, "b", true⟩] [] 1 1 60 7))
      1 1 60 7 = [⟨11, 101, 85, "b"⟩] := rfl
  have hm2 : (⟨11, 101, 85, "b"⟩ : Candidate) ∈ get_top_candidates
      [⟨1, 10, 90, 3⟩, ⟨1, 11, 85, 5⟩]
      [⟨10, 100, "a", true⟩, ⟨11, 101, "b", true⟩]
      (commitBatch [] 1 7
        (get_top_candidates [⟨1, 10, 90, 3⟩, ⟨1, 11, 85, 5⟩]
          [⟨10, 100, "a", true⟩, ⟨11, 101, "b", true⟩] [] 1 1 60 7))
      1 1 60 7 := by
    rw [hrun2]
    exact List.mem_cons_self _ _
  have hm1 : (⟨10, 100, 90, "a"⟩ : Candidate) ∈ get_top_candidates
      [⟨1, 10, 90, 3⟩, ⟨1, 11, 85, 5⟩]
      [⟨10, 100, "a", true⟩, ⟨11, 101, "b", true⟩] [] 1 1 60 7 := by
    rw [hrun1]
    exact List.mem_cons_self _ _
  have hfresh : ∀ cn ∈ ([] : List NotificationRecord), cn.batch_id ≠ 8 := by
    intro cn hcn
    cases hcn
  refine ⟨hm2, hm1, ?_, hfresh, ?_⟩
  · exact (c1_batch_dedup [⟨1, 10, 90, 3⟩, ⟨1, 11, 85, 5⟩]
      [⟨10, 100, "a", true⟩, ⟨11, 101, "b", true⟩] [] 1 1 60 7).1 _ hm2 _ hm1
  · exact (c1_batch_dedup [⟨1, 10, 90, 3⟩, ⟨1, 11, 85, 5⟩]
      [⟨10, 100, "a", true⟩, ⟨11, 101, "b", true⟩] [] 1 1 60 7).2 8 hfresh _

/- ===================== C8 ===================== -/

/-- C8 (amended): the integer percentage embedded in the candidate message
and in each team-lead summary line is `int(match_score * 100)`, i.e. the
floor of `match_score * 100` for scores in `[0, 1]`, and it lies in
`[0, 100]`. -/
theorem c8_message_percent (s : ℚ) (h0 : 0 ≤ s) (h1 : s ≤ 1) :
    candidate_message_percent s = ⌊s * 100⌋ ∧
      team_lead_line_percent s = ⌊s * 100⌋ ∧
      0 ≤ candidate_message_percent s ∧ candidate_message_percent s ≤ 100 := by
  have hge : (0 : ℚ) ≤ s * 100 := by positivity
  have hcf : candidate_message_percent s = ⌊s * 100⌋ := by
    rw [candidate_message_percent, pyInt, if_pos hge]
  refine ⟨hcf, by rw [team_lead_line_percent, pyInt, if_pos hge], ?_, ?_⟩
  · rw [hcf]
    exact Int.floor_nonneg.mpr hge
  · rw [hcf]
    have hle : s * 100 ≤ 100 := by nlinarith
    calc ⌊s * 100⌋ ≤ ⌊(100 : ℚ)⌋ := Int.floor_le_floor hle
      _ = 100 := by norm_num

/-- C8 as stated fails: at `match_score = 0.856` the code's `int()`
truncation yields 85 while `round(match_score * 100)` is 86. -/
theorem c8_counterexample :
    candidate_message_percent (107/125) = 85 ∧
      round ((107 : ℚ)/125 * 100) = 86 := by
  constructor
  · rw [candidate_message_percent, pyInt, if_pos (by norm_num)]
    norm_num [Int.floor_eq_iff]
  · rw [round_eq]
    norm_num [Int.floor_eq_iff]

/-- Witness for the amended C8 at `match_score = 0.85`. -/
theorem c8_message_percent_witness :
    (0 ≤ (17/20 : ℚ)) ∧ ((17/20 : ℚ) ≤ 1) ∧
      (candidate_message_percent (17/20) = ⌊(17/20 : ℚ) * 100⌋ ∧
        team_lead_line_percent (17/20) = ⌊(17/20 : ℚ) * 100⌋ ∧
        0 ≤ candidate_message_percent (17/20) ∧
        candidate_message_percent (17/20) ≤ 100) := by
  exact ⟨by norm_num, by norm_num, c8_message_percent (17/20) (by norm_num) (by norm_num)⟩

/- ===================== C9 ===================== -/

lemma process_one_project_of_ok (env : NotifyEnv) (p : Nat) (cs : List Candidate)
    (hg : env.get_candidates p = Except.ok cs) :
    process_one_project env p =
      if cs = [] then Except.ok ⟨0, false⟩
      else Except.ok ⟨cs.countP (fun c => processOneCandidate env p c),
        (env.send_team_lead p cs).isOk⟩ := by
  by_cases hcs : cs = []
  · subst hcs
    rw [if_pos rfl]
    simp only [process_one_project]
    rw [hg]
    rfl
  · rw [if_neg hcs]
    simp only [process_one_project]
    rw [hg]
    show (if cs = [] then (pure ⟨0, false⟩ : Except String ProjResult)
        else pure ⟨cs.countP (fun c => processOneCandidate env p c),
          (env.send_team_lead p cs).isOk⟩) = _
    rw [if_neg hcs]
    rfl

lemma process_one_project_of_error (env : NotifyEnv) (p : Nat) (e : String)
    (hg : env.get_candidates p = Except.error e) :
    process_one_project env p = Except.error e := by
  simp only [process_one_project]
  rw [hg]
  rfl

lemma process_one_project_ok (env : NotifyEnv) (p : Nat)
    (h : (env.get_candidates p).isOk = true) :
    ∃ r, process_one_project env p = Except.ok r := by
  cases hg : env.get_candidates p with
  | error e =>
    rw [hg] at h
    exact Bool.noConfusion h
  | ok cs =>
    rw [process_one_project_of_ok env p cs hg]
    split_ifs
    · exact ⟨_, rfl⟩
    · exact ⟨_, rfl⟩

/-- C9 (amended): when candidate retrieval succeeds for every project, the
run completes with one result per project — per-candidate dispatch or
record failures and team-lead failures never abort it — and the team-lead
summary outcome of a project depends only on the retrieval and team-lead
collaborators, not on any per-candidate failure.  (Candidate retrieval
itself is NOT isolated: see the counterexample.) -/
theorem c9_error_isolation (env env' : NotifyEnv) (projects : List Nat)
    (hok : ∀ p ∈ projects, (env.get_candidates p).isOk = true)
    (hg : env'.get_candidates = env.get_candidates)
    (hl : env'.send_team_lead = env.send_team_lead) :
    (∃ rs, process_project_notifications env projects = Except.ok rs ∧
      rs.length = projects.length) ∧
      (∀ p : Nat, Except.map ProjResult.team_lead_notified (process_one_project env p) =
        Except.map ProjResult.team_lead_notified (process_one_project env' p)) := by
  constructor
  · induction projects with
    | nil => exact ⟨[], rfl, rfl⟩
    | cons p ps ih =>
      obtain ⟨r, hr⟩ := process_one_project_ok env p (hok p (List.mem_cons_self _ _))
      obtain ⟨rs, hrs, hlen⟩ := ih (fun q hq => hok q (List.mem_cons_of_mem _ hq))
      refine ⟨(p, r) :: rs, ?_, by simp [hlen]⟩
      simp only [process_project_notifications]
      rw [hr, hrs]
      rfl
  · intro p
    cases hgp : env.get_candidates p with
    | error e =>
      rw [process_one_project_of_error env p e hgp,
        process_one_project_of_error env' p e (by rw [hg, hgp])]
    | ok cs =>
      rw [process_one_project_of_ok env p cs hgp,
        process_one_project_of_ok env' p cs (by rw [hg, hgp])]
      by_cases hcs : cs = []
      · rw [if_pos hcs, if_pos hcs]
      · rw [if_neg hcs, if_neg hcs, hl]
        rfl

/-- C9 as stated fails: an error during candidate retrieval for the first
project aborts the whole run — the second project is never processed —
although the second project on its own processes fine. -/
theorem c9_counterexample :
    process_project_notifications env0 [1, 2] = Except.error "db error" ∧
      process_one_project env0 2 = Except.ok ⟨0, false⟩ := by
  constructor
  · rfl
  · rfl

/-- Witness for the amended C9 on the all-succeeding environment. -/
theorem c9_error_isolation_witness :
    (∀ p ∈ [1], (env1.get_candidates p).isOk = true) ∧
      env1.get_candidates = env1.get_candidates ∧
      env1.send_team_lead = env1.send_team_lead ∧
      ((∃ rs, process_project_notifications env1 [1] = Except.ok rs ∧
          rs.length = ([1] : List Nat).length) ∧
        (∀ p : Nat, Except.map ProjResult.team_lead_notified (process_one_project env1 p) =
          Except.map ProjResult.team_lead_notified (process_one_project env1 p))) := by
  have h : ∀ p ∈ [1], (env1.get_candidates p).isOk = true := by
    intro p _
    rfl
  exact ⟨h, rfl, rfl, c9_error_isolation env1 env1 [1] h rfl rfl⟩
